import Mathlib

/-!
Shallow embedding of the CDR codec (`Cdr.cpp` of the vendored eProsima
Fast-CDR sources) over an explicit state record.  Buffer contents are
`List Nat` (each entry a byte value), cursors are offsets from the buffer
base, and every operation returns its result (or raised error) together
with the post-call state, mirroring the C++ in-place mutation plus
exception propagation.

The `Cdr.h` header and `FastBuffer` are not among the provided sources;
the few inline helpers the translated functions need (`alignment`,
`makeAlign`, the byte-granular iterator operators, `FastBuffer::resize`,
and the enumeration constants) are modelled from the spec and carry a
doc comment saying so.  The host is little-endian (x86 repository), so
`DEFAULT_ENDIAN` is little.
-/

namespace FastCdr

/-- CDR flavor, from the `CdrType` enumeration used by `Cdr::Cdr`. -/
inductive CdrType where
  | CORBA_CDR
  | DDS_CDR
deriving DecidableEq, Repr

/-- Modelled from the spec: bit 0 of the encapsulation kind is the
endianness bit, `0 = big`, `1 = little`. -/
def BIG_ENDIANNESS : Nat := 0

/-- Modelled from the spec: little endianness has bit value 1. -/
def LITTLE_ENDIANNESS : Nat := 1

/-- Host byte order: little (x86), as in the `__BIG_ENDIAN__` dispatch. -/
def DEFAULT_ENDIAN : Nat := LITTLE_ENDIANNESS

/-- Modelled from the spec: bit 1 of the encapsulation kind is the PL
flag; without-PL is 0. -/
def DDS_CDR_WITHOUT_PL : Nat := 0

/-- Modelled from the spec: with-PL is bit 1, value 2. -/
def DDS_CDR_WITH_PL : Nat := 2

/-- `CONSTEXPR size_t ALIGNMENT_LONG_DOUBLE = 8`. -/
def ALIGNMENT_LONG_DOUBLE : Nat := 8

/-- The codec state: the `Cdr` object's fields plus the underlying
buffer.  `buf` holds the bytes between `FastBuffer::begin()` and
`FastBuffer::end()`, so `buf.length` is the offset of `m_lastPosition`;
`curPos` and `alignPos` are the offsets of `m_currentPosition` and
`m_alignPosition`.  `growable` is the growth policy of the out-of-scope
buffer allocator (whether `FastBuffer::resize` succeeds). -/
structure CdrState where
  buf : List Nat
  growable : Bool
  curPos : Nat
  alignPos : Nat
  swapBytes : Bool
  lastDataSize : Nat
  endianness : Nat
  plFlag : Nat
  options : Nat
  cdrType : CdrType
deriving DecidableEq, Repr

/-- The two exception kinds thrown by the codec. -/
inductive CdrErr where
  | NotEnoughMemory
  | BadParam
deriving DecidableEq, Repr

instance {ε α : Type} [DecidableEq ε] [DecidableEq α] :
    DecidableEq (Except ε α) := fun x y =>
  match x, y with
  | Except.ok a, Except.ok b =>
    if h : a = b then isTrue (by rw [h]) else isFalse (by simp [h])
  | Except.error a, Except.error b =>
    if h : a = b then isTrue (by rw [h]) else isFalse (by simp [h])
  | Except.ok _, Except.error _ => isFalse (by simp)
  | Except.error _, Except.ok _ => isFalse (by simp)

/-- `Cdr::Cdr(FastBuffer&, Endianness, CdrType)`. -/
def mkCdr (buf : List Nat) (growable : Bool) (endianness : Nat)
    (cdrType : CdrType) : CdrState :=
  { buf := buf
    growable := growable
    curPos := 0
    alignPos := 0
    swapBytes := if endianness = DEFAULT_ENDIAN then false else true
    lastDataSize := 0
    endianness := endianness
    plFlag := DDS_CDR_WITHOUT_PL
    options := 0
    cdrType := cdrType }

/-- `Cdr::state`: the four fields snapshotted by `state::state(const Cdr&)`. -/
structure CdrSnap where
  curPos : Nat
  alignPos : Nat
  swapBytes : Bool
  lastDataSize : Nat
deriving DecidableEq, Repr

/-- `Cdr::state::state(const Cdr &cdr)` / `Cdr::getState`. -/
def getStateOf (s : CdrState) : CdrSnap :=
  ⟨s.curPos, s.alignPos, s.swapBytes, s.lastDataSize⟩

/-- `Cdr::setState`. -/
def setSnap (s : CdrState) (st : CdrSnap) : CdrState :=
  { s with curPos := st.curPos, alignPos := st.alignPos,
           swapBytes := st.swapBytes, lastDataSize := st.lastDataSize }

/-- `m_lastPosition - m_currentPosition`. -/
def remaining (s : CdrState) : Nat := s.buf.length - s.curPos

/-- Modelled from the spec: `FastBuffer::resize` (the buffer class is not
among the sources).  `grow(min_extra)` expands capacity by at least
`min_extra` bytes from the data cursor when the policy allows it; the
codec's `Cdr::resize` then rebases its iterators, which leaves all
offsets unchanged. -/
def resize (s : CdrState) (minSizeInc : Nat) : Option CdrState :=
  if s.growable then some { s with buf := s.buf ++ List.replicate minSizeInc 0 }
  else none

/-- The space guard of every serializer:
`((m_lastPosition - m_currentPosition) >= n) || resize(n)`. -/
def ensureSer (s : CdrState) (n : Nat) : Option CdrState :=
  if n ≤ remaining s then some s else resize s n

/-- Modelled from the spec: `Cdr::alignment(dataSize)` (inline in the
missing header); `needed = (-(data_cursor − align_anchor)) mod w`. -/
def alignment (s : CdrState) (dataSize : Nat) : Nat :=
  (dataSize - (s.curPos - s.alignPos) % dataSize) % dataSize

/-- Modelled from the spec: `Cdr::makeAlign` skips `align` padding bytes
(content undefined; existing bytes are left as they are). -/
def makeAlign (s : CdrState) (align : Nat) : CdrState :=
  { s with curPos := s.curPos + align }

/-- `m_currentPosition++ << b`: write one byte and advance. -/
def writeByte (s : CdrState) (b : Nat) : CdrState :=
  { s with buf := s.buf.set s.curPos b, curPos := s.curPos + 1 }

/-- Store a byte list into a buffer starting at `pos`. -/
def setBytes : List Nat → Nat → List Nat → List Nat
  | buf, _, [] => buf
  | buf, pos, b :: rest => setBytes (buf.set pos b) (pos + 1) rest

/-- A run of `m_currentPosition++ << byte` writes, or equivalently
`memcopy` plus a cursor advance. -/
def writeBytes (s : CdrState) (bs : List Nat) : CdrState :=
  { s with buf := setBytes s.buf s.curPos bs, curPos := s.curPos + bs.length }

/-- `m_currentPosition++ >> b`: read one byte and advance. -/
def readByte (s : CdrState) : Nat × CdrState :=
  (s.buf.getD s.curPos 0, { s with curPos := s.curPos + 1 })

/-- The `n` bytes at the cursor. -/
def readRegion (s : CdrState) (n : Nat) : List Nat :=
  (s.buf.drop s.curPos).take n

/-- `Cdr::resetAlignment`. -/
def resetAlignment (s : CdrState) : CdrState :=
  { s with alignPos := s.curPos }

/-- Little-endian (host order) bytes of a 16-bit value. -/
def leBytes2 (v : Nat) : List Nat := [v % 256, v / 256 % 256]

/-- Little-endian (host order) bytes of a 32-bit value. -/
def leBytes4 (v : Nat) : List Nat :=
  [v % 256, v / 256 % 256, v / 65536 % 256, v / 16777216 % 256]

/-- Byte-reversed (swapped) bytes of a 16-bit value. -/
def beBytes2 (v : Nat) : List Nat := (leBytes2 v).reverse

/-- Byte-reversed (swapped) bytes of a 32-bit value. -/
def beBytes4 (v : Nat) : List Nat := (leBytes4 v).reverse

/-- `Cdr::serialize(const char)` and, through the header casts, the
`uint8_t`/octet serializer. -/
def serialize_u8 (s : CdrState) (v : Nat) : Except CdrErr Unit × CdrState :=
  match ensureSer s 1 with
  | some s1 => (Except.ok (), writeByte { s1 with lastDataSize := 1 } (v % 256))
  | none => (Except.error CdrErr.NotEnoughMemory, s)

/-- `Cdr::deserialize(char&)` and the `uint8_t` reader. -/
def deserialize_u8 (s : CdrState) : Except CdrErr Nat × CdrState :=
  if 1 ≤ remaining s then
    let s1 := { s with lastDataSize := 1 }
    let r := readByte s1
    (Except.ok r.1, r.2)
  else (Except.error CdrErr.NotEnoughMemory, s)

/-- `Cdr::serialize(const int16_t)`; values are carried as 16-bit
unsigned bit patterns, so the `uint16_t` overload is the same map. -/
def serialize_i16 (s : CdrState) (v : Nat) : Except CdrErr Unit × CdrState :=
  let align := alignment s 2
  match ensureSer s (2 + align) with
  | some s1 =>
    let s2 := makeAlign { s1 with lastDataSize := 2 } align
    let bs := if s2.swapBytes then beBytes2 v else leBytes2 v
    (Except.ok (), writeBytes s2 bs)
  | none => (Except.error CdrErr.NotEnoughMemory, s)

/-- `Cdr::deserialize(int16_t&)`, result as 16-bit bit pattern. -/
def deserialize_i16 (s : CdrState) : Except CdrErr Nat × CdrState :=
  let align := alignment s 2
  if 2 + align ≤ remaining s then
    let s1 := makeAlign { s with lastDataSize := 2 } align
    let r0 := readByte s1
    let r1 := readByte r0.2
    let v := if s1.swapBytes then r1.1 + 256 * r0.1 else r0.1 + 256 * r1.1
    (Except.ok v, r1.2)
  else (Except.error CdrErr.NotEnoughMemory, s)

/-- `Cdr::serialize(const int32_t)` (also the `uint32_t` overload). -/
def serialize_i32 (s : CdrState) (v : Nat) : Except CdrErr Unit × CdrState :=
  let align := alignment s 4
  match ensureSer s (4 + align) with
  | some s1 =>
    let s2 := makeAlign { s1 with lastDataSize := 4 } align
    let bs := if s2.swapBytes then beBytes4 v else leBytes4 v
    (Except.ok (), writeBytes s2 bs)
  | none => (Except.error CdrErr.NotEnoughMemory, s)

/-- `Cdr::deserialize(int32_t&)` (also the `uint32_t` reader). -/
def deserialize_i32 (s : CdrState) : Except CdrErr Nat × CdrState :=
  let align := alignment s 4
  if 4 + align ≤ remaining s then
    let s1 := makeAlign { s with lastDataSize := 4 } align
    let r0 := readByte s1
    let r1 := readByte r0.2
    let r2 := readByte r1.2
    let r3 := readByte r2.2
    let v :=
      if s1.swapBytes then
        r3.1 + 256 * r2.1 + 65536 * r1.1 + 16777216 * r0.1
      else
        r0.1 + 256 * r1.1 + 65536 * r2.1 + 16777216 * r3.1
    (Except.ok v, r3.2)
  else (Except.error CdrErr.NotEnoughMemory, s)

/-- `Cdr::serialize(const bool)`. -/
def serialize_bool (s : CdrState) (b : Bool) : Except CdrErr Unit × CdrState :=
  match ensureSer s 1 with
  | some s1 =>
    (Except.ok (), writeByte { s1 with lastDataSize := 1 } (if b then 1 else 0))
  | none => (Except.error CdrErr.NotEnoughMemory, s)

/-- `Cdr::deserialize(bool&)`: reads the byte (advancing the cursor),
then accepts 1 as `true`, 0 as `false`, and throws `BadParamException`
for anything else — after the cursor has already moved. -/
def deserialize_bool (s : CdrState) : Except CdrErr Bool × CdrState :=
  if 1 ≤ remaining s then
    let s1 := { s with lastDataSize := 1 }
    let r := readByte s1
    if r.1 = 1 then (Except.ok true, r.2)
    else if r.1 = 0 then (Except.ok false, r.2)
    else (Except.error CdrErr.BadParam, r.2)
  else (Except.error CdrErr.NotEnoughMemory, s)

/-- `Cdr::serialize(const char *string_t)`.  A C string is `none` for the
null pointer or `some cs` with `cs` the characters before the NUL, so
`length = strlen + 1 = cs.length + 1` and the copied payload is
`cs ++ [0]`. -/
def serialize_string (s : CdrState) (str : Option (List Nat)) :
    Except CdrErr Unit × CdrState :=
  let length : Nat := match str with | none => 0 | some cs => cs.length + 1
  if 0 < length then
    let st := getStateOf s
    match serialize_i32 s length with
    | (Except.error e, s1) => (Except.error e, s1)
    | (Except.ok _, s1) =>
      match ensureSer s1 length with
      | some s2 =>
        let payload := match str with | none => [] | some cs => cs ++ [0]
        (Except.ok (), writeBytes { s2 with lastDataSize := 1 } payload)
      | none => (Except.error CdrErr.NotEnoughMemory, setSnap s1 st)
  else
    match serialize_i32 s length with
    | (Except.error e, s1) => (Except.error e, s1)
    | (Except.ok _, s1) => (Except.ok (), s1)

/-- `Cdr::deserialize(char *&string_t)`: result `none` models the NULL
pointer returned for a zero length, `some bytes` the `length` bytes
copied out of the buffer. -/
def deserialize_string (s : CdrState) :
    Except CdrErr (Option (List Nat)) × CdrState :=
  let st := getStateOf s
  match deserialize_i32 s with
  | (Except.error e, s1) => (Except.error e, s1)
  | (Except.ok length, s1) =>
    if length = 0 then (Except.ok none, s1)
    else if length ≤ remaining s1 then
      let s2 := { s1 with lastDataSize := 1 }
      (Except.ok (some (readRegion s2 length)),
        { s2 with curPos := s2.curPos + length })
    else (Except.error CdrErr.NotEnoughMemory, setSnap s1 st)

/-- `Cdr::readString(uint32_t &length)`: returns the exposed byte region
together with the reported length (decremented when the last byte is the
NUL terminator). -/
def readString (s : CdrState) : Except CdrErr (List Nat × Nat) × CdrState :=
  let st := getStateOf s
  match deserialize_i32 s with
  | (Except.error e, s1) => (Except.error e, s1)
  | (Except.ok length, s1) =>
    if length = 0 then (Except.ok ([], length), s1)
    else if length ≤ remaining s1 then
      let s2 := { s1 with lastDataSize := 1 }
      let region := readRegion s2 length
      let outLen := if region.getD (length - 1) 1 = 0 then length - 1 else length
      (Except.ok (region, outLen), { s2 with curPos := s2.curPos + length })
    else (Except.error CdrErr.NotEnoughMemory, setSnap s1 st)

/-- The temporary swap computed by every byte-order-override form:
`(m_swapBytes && (m_endianness == endianness)) ||
 (!m_swapBytes && (m_endianness != endianness))`. -/
def overrideSwap (s : CdrState) (endianness : Nat) : Bool :=
  (s.swapBytes && decide (s.endianness = endianness)) ||
  (!s.swapBytes && decide (s.endianness ≠ endianness))

/-- `Cdr::serialize(const int16_t, Endianness)`. -/
def serialize_i16_endian (s : CdrState) (v : Nat) (endianness : Nat) :
    Except CdrErr Unit × CdrState :=
  let auxSwap := s.swapBytes
  match serialize_i16 { s with swapBytes := overrideSwap s endianness } v with
  | (Except.ok _, s1) => (Except.ok (), { s1 with swapBytes := auxSwap })
  | (Except.error e, s1) => (Except.error e, { s1 with swapBytes := auxSwap })

/-- `Cdr::deserialize(int16_t&, Endianness)`. -/
def deserialize_i16_endian (s : CdrState) (endianness : Nat) :
    Except CdrErr Nat × CdrState :=
  let auxSwap := s.swapBytes
  match deserialize_i16 { s with swapBytes := overrideSwap s endianness } with
  | (Except.ok v, s1) => (Except.ok v, { s1 with swapBytes := auxSwap })
  | (Except.error e, s1) => (Except.error e, { s1 with swapBytes := auxSwap })

/-- `Cdr::serializeArray(const bool*, size_t)`: no alignment, no early
return for zero elements — the space guard passes (`totalSize = 0`) and
`m_lastDataSize` is still set to 1. -/
def serializeArray_bool (s : CdrState) (arr : List Bool) :
    Except CdrErr Unit × CdrState :=
  match ensureSer s arr.length with
  | some s1 =>
    (Except.ok (),
      writeBytes { s1 with lastDataSize := 1 }
        (arr.map fun b => if b then 1 else 0))
  | none => (Except.error CdrErr.NotEnoughMemory, s)

/-- `Cdr::serializeArray(const char*, size_t)`: bulk `memcopy`, no
alignment, no early return for zero elements. -/
def serializeArray_char (s : CdrState) (arr : List Nat) :
    Except CdrErr Unit × CdrState :=
  match ensureSer s arr.length with
  | some s1 =>
    (Except.ok (), writeBytes { s1 with lastDataSize := 1 } arr)
  | none => (Except.error CdrErr.NotEnoughMemory, s)

/-- `Cdr::serializeArray(const int16_t*, size_t)`.  The swapped branch of
the source reads from `&short_t` (the address of the pointer variable);
per note 9.1 of the spec the element pointer itself is the intended
source, and the swapped path is modelled accordingly (per-element byte
reversal). -/
def serializeArray_i16 (s : CdrState) (arr : List Nat) :
    Except CdrErr Unit × CdrState :=
  if arr.length = 0 then (Except.ok (), s)
  else
    let align := alignment s 2
    match ensureSer s (2 * arr.length + align) with
    | some s1 =>
      let s2 := makeAlign { s1 with lastDataSize := 2 } align
      let bs := (arr.map fun v =>
        if s2.swapBytes then beBytes2 v else leBytes2 v).flatten
      (Except.ok (), writeBytes s2 bs)
    | none => (Except.error CdrErr.NotEnoughMemory, s)

/-- The per-element rule of the bool-array reader: byte 1 stores `true`,
byte 0 stores `false`, anything else leaves the element untouched. -/
def boolElemRule (b : Nat) (old : Bool) : Bool :=
  if b = 1 then true else if b = 0 then false else old

/-- The element loop of `Cdr::deserializeArray(bool*, size_t)`; `arr`
carries the destination's prior contents. -/
def deArrBoolLoop : CdrState → List Bool → CdrState × List Bool
  | s, [] => (s, [])
  | s, old :: rest =>
    let r := readByte s
    let next := deArrBoolLoop r.2 rest
    (next.1, boolElemRule r.1 old :: next.2)

/-- `Cdr::deserializeArray(bool*, size_t)`: unlike the scalar reader it
throws nothing for bytes outside `{0, 1}`. -/
def deserializeArray_bool (s : CdrState) (arr : List Bool) :
    Except CdrErr (List Bool) × CdrState :=
  if arr.length ≤ remaining s then
    let r := deArrBoolLoop { s with lastDataSize := 1 } arr
    (Except.ok r.2, r.1)
  else (Except.error CdrErr.NotEnoughMemory, s)

/-- The element loop of `Cdr::deserializeArray(int16_t*, size_t)`. -/
def deArrI16Loop : CdrState → Nat → List Nat × CdrState
  | s, 0 => ([], s)
  | s, n + 1 =>
    let r0 := readByte s
    let r1 := readByte r0.2
    let v := if s.swapBytes then r1.1 + 256 * r0.1 else r0.1 + 256 * r1.1
    let rest := deArrI16Loop r1.2 n
    (v :: rest.1, rest.2)

/-- `Cdr::deserializeArray(int16_t*, size_t)`. -/
def deserializeArray_i16 (s : CdrState) (numElements : Nat) :
    Except CdrErr (List Nat) × CdrState :=
  if numElements = 0 then (Except.ok [], s)
  else
    let align := alignment s 2
    if 2 * numElements + align ≤ remaining s then
      let s1 := makeAlign { s with lastDataSize := 2 } align
      let r := deArrI16Loop s1 numElements
      (Except.ok r.1, r.2)
    else (Except.error CdrErr.NotEnoughMemory, s)

/-- The endianness negotiation step of `Cdr::read_encapsulation`: if the
low bit of the encapsulation kind disagrees with the codec byte order,
toggle `m_swapBytes` and adopt the stream byte order. -/
def kindEndianAdjust (s : CdrState) (kind : Nat) : CdrState :=
  if s.endianness ≠ (kind &&& 1) then
    { s with swapBytes := !s.swapBytes, endianness := kind &&& 1 }
  else s

/-- The tail of `Cdr::read_encapsulation`: the second `try` block
(`(*this) >> m_options` for DDS-CDR, its `catch` restoring the snapshot
`st`) followed by `resetAlignment()`. -/
def readEncapsOpts (s : CdrState) (st : CdrSnap) : Except CdrErr Unit × CdrState :=
  match (if s.cdrType = CdrType.DDS_CDR
         then deserialize_i16 s else (Except.ok s.options, s)) with
  | (Except.error e, s1) => (Except.error e, setSnap s1 st)
  | (Except.ok opts, s1) =>
    let s2 := if s.cdrType = CdrType.DDS_CDR
              then { s1 with options := opts } else s1
    (Except.ok (), resetAlignment s2)

/-- `Cdr::read_encapsulation`.  The first `try` block covers the dummy
byte and the encapsulation-kind byte (its `catch` restores the snapshot);
the PL-bit check sits outside any `try`, so its `BadParamException`
propagates without `setState`; the `options` read is guarded again. -/
def read_encapsulation (s : CdrState) : Except CdrErr Unit × CdrState :=
  let st := getStateOf s
  let firstSteps : Except CdrErr Nat × CdrState :=
    match (if s.cdrType = CdrType.DDS_CDR
           then deserialize_u8 s else (Except.ok 0, s)) with
    | (Except.error e, s1) => (Except.error e, s1)
    | (Except.ok _, s1) => deserialize_u8 s1
  match firstSteps with
  | (Except.error e, s1) => (Except.error e, setSnap s1 st)
  | (Except.ok encapsulationKind, s1) =>
    let s2 := kindEndianAdjust s1 encapsulationKind
    if encapsulationKind &&& DDS_CDR_WITH_PL ≠ 0 then
      if s2.cdrType = CdrType.DDS_CDR then
        readEncapsOpts { s2 with plFlag := DDS_CDR_WITH_PL } st
      else (Except.error CdrErr.BadParam, s2)
    else readEncapsOpts s2 st

/-- `Cdr::serialize_encapsulation`. -/
def serialize_encapsulation (s : CdrState) : Except CdrErr Unit × CdrState :=
  let st := getStateOf s
  let firstSteps : Except CdrErr Unit × CdrState :=
    match (if s.cdrType = CdrType.DDS_CDR
           then serialize_u8 s 0 else (Except.ok (), s)) with
    | (Except.error e, s1) => (Except.error e, s1)
    | (Except.ok _, s1) => serialize_u8 s1 (s1.plFlag ||| s1.endianness)
  match firstSteps with
  | (Except.error e, s1) => (Except.error e, setSnap s1 st)
  | (Except.ok _, s1) =>
    match (if s1.cdrType = CdrType.DDS_CDR
           then serialize_i16 s1 s1.options else (Except.ok (), s1)) with
    | (Except.error e, s2) => (Except.error e, setSnap s2 st)
    | (Except.ok _, s2) => (Except.ok (), resetAlignment s2)

/-- `Cdr::serializeBoolSequence(const std::vector<bool>&)`. -/
def serializeBoolSequence (s : CdrState) (v : List Bool) :
    Except CdrErr Unit × CdrState :=
  let st := getStateOf s
  match serialize_i32 s v.length with
  | (Except.error e, s1) => (Except.error e, s1)
  | (Except.ok _, s1) =>
    match ensureSer s1 v.length with
    | some s2 =>
      (Except.ok (),
        writeBytes { s2 with lastDataSize := 1 }
          (v.map fun b => if b then 1 else 0))
    | none => (Except.error CdrErr.NotEnoughMemory, setSnap s1 st)

/-- `std::vector<bool>::resize(n)`: truncate or pad with `false`. -/
def listResize (v : List Bool) (n : Nat) : List Bool :=
  v.take n ++ List.replicate (n - v.length) false

/-- The element loop of `Cdr::deserializeBoolSequence`: sets elements for
bytes 0/1 and throws `BadParamException` mid-loop otherwise (with the
cursor already advanced and no restore). -/
def deBoolSeqLoop : CdrState → List Bool → Nat → Nat →
    Except CdrErr Unit × CdrState × List Bool
  | s, v, _, 0 => (Except.ok (), s, v)
  | s, v, idx, n + 1 =>
    let r := readByte s
    if r.1 = 1 then deBoolSeqLoop r.2 (v.set idx true) (idx + 1) n
    else if r.1 = 0 then deBoolSeqLoop r.2 (v.set idx false) (idx + 1) n
    else (Except.error CdrErr.BadParam, r.2, v)

/-- `Cdr::deserializeBoolSequence(std::vector<bool>&)`: the caller's
vector is resized to the decoded length before the remaining-bytes
check; the error paths restore the codec state (`setState`) but not the
vector. -/
def deserializeBoolSequence (s : CdrState) (v : List Bool) :
    Except CdrErr Unit × CdrState × List Bool :=
  let st := getStateOf s
  match deserialize_i32 s with
  | (Except.error e, s1) => (Except.error e, s1, v)
  | (Except.ok seqLength, s1) =>
    let v1 := listResize v seqLength
    if seqLength ≤ remaining s1 then
      deBoolSeqLoop { s1 with lastDataSize := 1 } v1 0 seqLength
    else (Except.error CdrErr.NotEnoughMemory, setSnap s1 st, v1)

example : deserialize_bool (mkCdr [2] false LITTLE_ENDIANNESS CdrType.CORBA_CDR) =
    (Except.error CdrErr.BadParam,
      { mkCdr [2] false LITTLE_ENDIANNESS CdrType.CORBA_CDR with
          curPos := 1, lastDataSize := 1 }) := by decide

example : serialize_i16 (mkCdr [0, 0] false LITTLE_ENDIANNESS CdrType.CORBA_CDR) 0x1234 =
    (Except.ok (),
      { mkCdr [0, 0] false LITTLE_ENDIANNESS CdrType.CORBA_CDR with
          buf := [0x34, 0x12], curPos := 2, lastDataSize := 2 }) := by decide

/-- The element loop of `Cdr::serializeArray(const wchar_t*, size_t)`:
`serialize(wchar[count])` per element, no aggregate space guard, no
snapshot — an exception from any element propagates with the cursor
already advanced past the previous elements.  The scalar `wchar_t`
serializer is inline in the missing header; per spec §4.7 each wide
character delegates to the 32-bit primitive. -/
def serArrWcharLoop : CdrState → List Nat → Except CdrErr Unit × CdrState
  | s, [] => (Except.ok (), s)
  | s, v :: rest =>
    match serialize_i32 s v with
    | (Except.error e, s1) => (Except.error e, s1)
    | (Except.ok _, s1) => serArrWcharLoop s1 rest

/-- `Cdr::serializeArray(const wchar_t*, size_t)`: early return on zero
elements, then the per-element loop. -/
def serializeArray_wchar (s : CdrState) (arr : List Nat) :
    Except CdrErr Unit × CdrState :=
  if arr.length = 0 then (Except.ok (), s)
  else serArrWcharLoop s arr

/-- The element loop of `Cdr::deserializeArray(wchar_t*, size_t)`:
`deserialize(value)` (a `uint32_t`) per element, no aggregate space
guard, no snapshot. -/
def deArrWcharLoop : CdrState → Nat → Except CdrErr (List Nat) × CdrState
  | s, 0 => (Except.ok [], s)
  | s, n + 1 =>
    match deserialize_i32 s with
    | (Except.error e, s1) => (Except.error e, s1)
    | (Except.ok v, s1) =>
      match deArrWcharLoop s1 n with
      | (Except.error e, s2) => (Except.error e, s2)
      | (Except.ok rest, s2) => (Except.ok (v :: rest), s2)

/-- `Cdr::deserializeArray(wchar_t*, size_t)`: early return on zero
elements, then the per-element loop. -/
def deserializeArray_wchar (s : CdrState) (numElements : Nat) :
    Except CdrErr (List Nat) × CdrState :=
  if numElements = 0 then (Except.ok [], s)
  else deArrWcharLoop s numElements

/-- `Cdr::serializeArray(const wchar_t*, size_t, Endianness)`. -/
def serializeArray_wchar_endian (s : CdrState) (arr : List Nat)
    (endianness : Nat) : Except CdrErr Unit × CdrState :=
  let auxSwap := s.swapBytes
  match serializeArray_wchar { s with swapBytes := overrideSwap s endianness } arr with
  | (Except.ok _, s1) => (Except.ok (), { s1 with swapBytes := auxSwap })
  | (Except.error e, s1) => (Except.error e, { s1 with swapBytes := auxSwap })

/-- `Cdr::deserializeArray(wchar_t*, size_t, Endianness)`. -/
def deserializeArray_wchar_endian (s : CdrState) (n : Nat)
    (endianness : Nat) : Except CdrErr (List Nat) × CdrState :=
  let auxSwap := s.swapBytes
  match deserializeArray_wchar { s with swapBytes := overrideSwap s endianness } n with
  | (Except.ok vs, s1) => (Except.ok vs, { s1 with swapBytes := auxSwap })
  | (Except.error e, s1) => (Except.error e, { s1 with swapBytes := auxSwap })

/-- Projection forgetting an operation's returned value, keeping the
error and the post-call state. -/
def dropVal {α : Type} (r : Except CdrErr α × CdrState) :
    Except CdrErr Unit × CdrState :=
  (r.1.map fun _ => (), r.2)

/-- The serialize and deserialize operations of the embedded surface,
with their arguments. -/
inductive CdrOp where
  | serU8 (v : Nat)
  | serI16 (v : Nat)
  | serI32 (v : Nat)
  | serBool (b : Bool)
  | serI16E (v : Nat) (e : Nat)
  | serStr (str : Option (List Nat))
  | serArrBool (arr : List Bool)
  | serArrChar (arr : List Nat)
  | serArrI16 (arr : List Nat)
  | serArrWchar (arr : List Nat)
  | serArrWcharE (arr : List Nat) (e : Nat)
  | serEncaps
  | serBoolSeq (v : List Bool)
  | deU8
  | deI16
  | deI32
  | deBool
  | deI16E (e : Nat)
  | deStr
  | readStr
  | deArrBool (old : List Bool)
  | deArrI16 (n : Nat)
  | deArrWchar (n : Nat)
  | deArrWcharE (n : Nat) (e : Nat)
  | readEncaps
  | deBoolSeq (v : List Bool)
deriving DecidableEq, Repr

/-- Run one operation: the raised error (if any) and the post-call
codec state. -/
def runOp : CdrOp → CdrState → Except CdrErr Unit × CdrState
  | CdrOp.serU8 v, s => serialize_u8 s v
  | CdrOp.serI16 v, s => serialize_i16 s v
  | CdrOp.serI32 v, s => serialize_i32 s v
  | CdrOp.serBool b, s => serialize_bool s b
  | CdrOp.serI16E v e, s => serialize_i16_endian s v e
  | CdrOp.serStr str, s => serialize_string s str
  | CdrOp.serArrBool arr, s => serializeArray_bool s arr
  | CdrOp.serArrChar arr, s => serializeArray_char s arr
  | CdrOp.serArrI16 arr, s => serializeArray_i16 s arr
  | CdrOp.serArrWchar arr, s => serializeArray_wchar s arr
  | CdrOp.serArrWcharE arr en, s => serializeArray_wchar_endian s arr en
  | CdrOp.serEncaps, s => serialize_encapsulation s
  | CdrOp.serBoolSeq v, s => serializeBoolSequence s v
  | CdrOp.deU8, s => dropVal (deserialize_u8 s)
  | CdrOp.deI16, s => dropVal (deserialize_i16 s)
  | CdrOp.deI32, s => dropVal (deserialize_i32 s)
  | CdrOp.deBool, s => dropVal (deserialize_bool s)
  | CdrOp.deI16E e, s => dropVal (deserialize_i16_endian s e)
  | CdrOp.deStr, s => dropVal (deserialize_string s)
  | CdrOp.readStr, s => dropVal (readString s)
  | CdrOp.deArrBool old, s => dropVal (deserializeArray_bool s old)
  | CdrOp.deArrI16 n, s => dropVal (deserializeArray_i16 s n)
  | CdrOp.deArrWchar n, s => dropVal (deserializeArray_wchar s n)
  | CdrOp.deArrWcharE n en, s => dropVal (deserializeArray_wchar_endian s n en)
  | CdrOp.readEncaps, s => read_encapsulation s
  | CdrOp.deBoolSeq v, s =>
    let r := deserializeBoolSequence s v
    (r.1, r.2.1)

/-- The operations whose element loops run with no aggregate space guard
and no snapshot: the wide-character array forms, which can raise
insufficient-space mid-loop with the cursor already advanced. -/
def CdrOp.isWcharArray : CdrOp → Bool
  | CdrOp.serArrWchar _ => true
  | CdrOp.serArrWcharE _ _ => true
  | CdrOp.deArrWchar _ => true
  | CdrOp.deArrWcharE _ _ => true
  | _ => false

lemma dropVal_err {α : Type} (r : Except CdrErr α × CdrState) (e : CdrErr) :
    (dropVal r).1 = Except.error e ↔ r.1 = Except.error e := by
  cases r with
  | mk x s => cases x <;> simp [dropVal, Except.map]

lemma getStateOf_setSnap (s : CdrState) (st : CdrSnap) :
    getStateOf (setSnap s st) = st := by
  simp [getStateOf, setSnap]

lemma serialize_u8_err (s : CdrState) (v : Nat) (e : CdrErr)
    (h : (serialize_u8 s v).1 = Except.error e) : (serialize_u8 s v).2 = s := by
  cases hE : ensureSer s 1 with
  | some s1 => simp [serialize_u8, hE] at h
  | none => simp [serialize_u8, hE]

lemma serialize_i16_err (s : CdrState) (v : Nat) (e : CdrErr)
    (h : (serialize_i16 s v).1 = Except.error e) : (serialize_i16 s v).2 = s := by
  cases hE : ensureSer s (2 + alignment s 2) with
  | some s1 => simp [serialize_i16, hE] at h
  | none => simp [serialize_i16, hE]

lemma serialize_i32_err (s : CdrState) (v : Nat) (e : CdrErr)
    (h : (serialize_i32 s v).1 = Except.error e) : (serialize_i32 s v).2 = s := by
  cases hE : ensureSer s (4 + alignment s 4) with
  | some s1 => simp [serialize_i32, hE] at h
  | none => simp [serialize_i32, hE]

lemma serialize_bool_err (s : CdrState) (b : Bool) (e : CdrErr)
    (h : (serialize_bool s b).1 = Except.error e) : (serialize_bool s b).2 = s := by
  cases hE : ensureSer s 1 with
  | some s1 => simp [serialize_bool, hE] at h
  | none => simp [serialize_bool, hE]

lemma deserialize_u8_err (s : CdrState) (e : CdrErr)
    (h : (deserialize_u8 s).1 = Except.error e) : (deserialize_u8 s).2 = s := by
  by_cases hrem : 1 ≤ remaining s
  · simp [deserialize_u8, hrem] at h
  · simp [deserialize_u8, hrem]

lemma deserialize_i16_err (s : CdrState) (e : CdrErr)
    (h : (deserialize_i16 s).1 = Except.error e) : (deserialize_i16 s).2 = s := by
  by_cases hrem : 2 + alignment s 2 ≤ remaining s
  · simp [deserialize_i16, hrem] at h
  · simp [deserialize_i16, hrem]

lemma deserialize_i32_err (s : CdrState) (e : CdrErr)
    (h : (deserialize_i32 s).1 = Except.error e) : (deserialize_i32 s).2 = s := by
  by_cases hrem : 4 + alignment s 4 ≤ remaining s
  · simp [deserialize_i32, hrem] at h
  · simp [deserialize_i32, hrem]

lemma deserialize_bool_nem (s : CdrState)
    (h : (deserialize_bool s).1 = Except.error CdrErr.NotEnoughMemory) :
    (deserialize_bool s).2 = s := by
  by_cases hrem : 1 ≤ remaining s
  · simp only [deserialize_bool, hrem, if_true] at h
    split at h
    · simp at h
    · split at h
      · simp at h
      · simp at h
  · simp [deserialize_bool, hrem]

lemma serialize_i16_endian_err (s : CdrState) (v en : Nat) (e : CdrErr)
    (h : (serialize_i16_endian s v en).1 = Except.error e) :
    (serialize_i16_endian s v en).2 = s := by
  rcases hI : serialize_i16 { s with swapBytes := overrideSwap s en } v with ⟨r, s1⟩
  cases r with
  | ok u => simp [serialize_i16_endian, hI] at h
  | error e2 =>
    have hs1 : s1 = { s with swapBytes := overrideSwap s en } := by
      have h2 := serialize_i16_err { s with swapBytes := overrideSwap s en } v e2
      rw [hI] at h2
      exact h2 rfl
    simp [serialize_i16_endian, hI, hs1]

lemma deserialize_i16_endian_err (s : CdrState) (en : Nat) (e : CdrErr)
    (h : (deserialize_i16_endian s en).1 = Except.error e) :
    (deserialize_i16_endian s en).2 = s := by
  rcases hI : deserialize_i16 { s with swapBytes := overrideSwap s en } with ⟨r, s1⟩
  cases r with
  | ok u => simp [deserialize_i16_endian, hI] at h
  | error e2 =>
    have hs1 : s1 = { s with swapBytes := overrideSwap s en } := by
      have h2 := deserialize_i16_err { s with swapBytes := overrideSwap s en } e2
      rw [hI] at h2
      exact h2 rfl
    simp [deserialize_i16_endian, hI, hs1]

lemma serializeArray_bool_err (s : CdrState) (arr : List Bool) (e : CdrErr)
    (h : (serializeArray_bool s arr).1 = Except.error e) :
    (serializeArray_bool s arr).2 = s := by
  cases hE : ensureSer s arr.length with
  | some s1 => simp [serializeArray_bool, hE] at h
  | none => simp [serializeArray_bool, hE]

lemma serializeArray_char_err (s : CdrState) (arr : List Nat) (e : CdrErr)
    (h : (serializeArray_char s arr).1 = Except.error e) :
    (serializeArray_char s arr).2 = s := by
  cases hE : ensureSer s arr.length with
  | some s1 => simp [serializeArray_char, hE] at h
  | none => simp [serializeArray_char, hE]

lemma serializeArray_i16_err (s : CdrState) (arr : List Nat) (e : CdrErr)
    (h : (serializeArray_i16 s arr).1 = Except.error e) :
    (serializeArray_i16 s arr).2 = s := by
  by_cases hn : arr.length = 0
  · simp [serializeArray_i16, hn] at h
  · cases hE : ensureSer s (2 * arr.length + alignment s 2) with
    | some s1 => simp [serializeArray_i16, hn, hE] at h
    | none => simp [serializeArray_i16, hn, hE]

lemma deserializeArray_bool_err (s : CdrState) (arr : List Bool) (e : CdrErr)
    (h : (deserializeArray_bool s arr).1 = Except.error e) :
    (deserializeArray_bool s arr).2 = s := by
  by_cases hrem : arr.length ≤ remaining s
  · simp [deserializeArray_bool, hrem] at h
  · simp [deserializeArray_bool, hrem]

lemma deserializeArray_i16_err (s : CdrState) (n : Nat) (e : CdrErr)
    (h : (deserializeArray_i16 s n).1 = Except.error e) :
    (deserializeArray_i16 s n).2 = s := by
  by_cases hn : n = 0
  · simp [deserializeArray_i16, hn] at h
  · by_cases hrem : 2 * n + alignment s 2 ≤ remaining s
    · simp [deserializeArray_i16, hn, hrem] at h
    · simp [deserializeArray_i16, hn, hrem]

lemma serialize_string_err (s : CdrState) (str : Option (List Nat)) (e : CdrErr)
    (h : (serialize_string s str).1 = Except.error e) :
    getStateOf (serialize_string s str).2 = getStateOf s := by
  cases str with
  | none =>
    rcases hI : serialize_i32 s 0 with ⟨r, s1⟩
    cases r with
    | ok u => simp [serialize_string, hI] at h
    | error e2 =>
      have hs1 : s1 = s := by
        have h2 := serialize_i32_err s 0 e2
        rw [hI] at h2
        exact h2 rfl
      simp [serialize_string, hI, hs1]
  | some cs =>
    rcases hI : serialize_i32 s (cs.length + 1) with ⟨r, s1⟩
    cases r with
    | error e2 =>
      have hs1 : s1 = s := by
        have h2 := serialize_i32_err s (cs.length + 1) e2
        rw [hI] at h2
        exact h2 rfl
      simp [serialize_string, hI, hs1]
    | ok u =>
      cases hE : ensureSer s1 (cs.length + 1) with
      | some s2 => simp [serialize_string, hI, hE] at h
      | none => simp [serialize_string, hI, hE, getStateOf_setSnap]

lemma deserialize_string_err (s : CdrState) (e : CdrErr)
    (h : (deserialize_string s).1 = Except.error e) :
    getStateOf (deserialize_string s).2 = getStateOf s := by
  rcases hI : deserialize_i32 s with ⟨r, s1⟩
  cases r with
  | error e2 =>
    have hs1 : s1 = s := by
      have h2 := deserialize_i32_err s e2
      rw [hI] at h2
      exact h2 rfl
    simp [deserialize_string, hI, hs1]
  | ok length =>
    by_cases h0 : length = 0
    · simp [deserialize_string, hI, h0] at h
    · by_cases hrem : length ≤ remaining s1
      · simp [deserialize_string, hI, h0, hrem] at h
      · simp [deserialize_string, hI, h0, hrem, getStateOf_setSnap]

lemma readString_err (s : CdrState) (e : CdrErr)
    (h : (readString s).1 = Except.error e) :
    getStateOf (readString s).2 = getStateOf s := by
  rcases hI : deserialize_i32 s with ⟨r, s1⟩
  cases r with
  | error e2 =>
    have hs1 : s1 = s := by
      have h2 := deserialize_i32_err s e2
      rw [hI] at h2
      exact h2 rfl
    simp [readString, hI, hs1]
  | ok length =>
    by_cases h0 : length = 0
    · simp [readString, hI, h0] at h
    · by_cases hrem : length ≤ remaining s1
      · simp [readString, hI, h0, hrem] at h
      · simp [readString, hI, h0, hrem, getStateOf_setSnap]

lemma ensureSer_fields (s s1 : CdrState) (n : Nat) (h : ensureSer s n = some s1) :
    s1.curPos = s.curPos ∧ s1.alignPos = s.alignPos ∧ s1.swapBytes = s.swapBytes ∧
    s1.lastDataSize = s.lastDataSize ∧ s1.endianness = s.endianness ∧
    s1.plFlag = s.plFlag ∧ s1.options = s.options ∧ s1.cdrType = s.cdrType ∧
    s1.growable = s.growable := by
  unfold ensureSer resize at h
  split at h
  · simp only [Option.some.injEq] at h
    subst h
    exact ⟨rfl, rfl, rfl, rfl, rfl, rfl, rfl, rfl, rfl⟩
  · split at h
    · simp only [Option.some.injEq] at h
      subst h
      exact ⟨rfl, rfl, rfl, rfl, rfl, rfl, rfl, rfl, rfl⟩
    · simp at h

lemma serialize_u8_cdrType (s : CdrState) (v : Nat) :
    (serialize_u8 s v).2.cdrType = s.cdrType := by
  cases hE : ensureSer s 1 with
  | some s1 =>
    have hf := ensureSer_fields s s1 1 hE
    simp [serialize_u8, hE, writeByte, hf.2.2.2.2.2.2.2.1]
  | none => simp [serialize_u8, hE]

lemma deserialize_u8_cdrType (s : CdrState) :
    (deserialize_u8 s).2.cdrType = s.cdrType := by
  by_cases hrem : 1 ≤ remaining s <;> simp [deserialize_u8, readByte, hrem]

lemma readEncapsOpts_err (s : CdrState) (st : CdrSnap) (e : CdrErr)
    (h : (readEncapsOpts s st).1 = Except.error e) :
    getStateOf (readEncapsOpts s st).2 = st := by
  by_cases hT : s.cdrType = CdrType.DDS_CDR
  · rcases hI : deserialize_i16 s with ⟨r, s1⟩
    cases r with
    | error e2 => simp [readEncapsOpts, hT, hI, getStateOf_setSnap]
    | ok opts => simp [readEncapsOpts, hT, hI] at h
  · simp [readEncapsOpts, hT] at h

lemma kindEndianAdjust_cdrType (s : CdrState) (kind : Nat) :
    (kindEndianAdjust s kind).cdrType = s.cdrType := by
  unfold kindEndianAdjust
  split <;> rfl

lemma read_encapsulation_nem (s : CdrState)
    (h : (read_encapsulation s).1 = Except.error CdrErr.NotEnoughMemory) :
    getStateOf (read_encapsulation s).2 = getStateOf s := by
  by_cases hT : s.cdrType = CdrType.DDS_CDR
  case pos =>
    rcases h1 : deserialize_u8 s with ⟨r1, s1⟩
    cases r1 with
    | error e1 => simp [read_encapsulation, hT, h1, getStateOf_setSnap]
    | ok d =>
      rcases h2 : deserialize_u8 s1 with ⟨r2, s2⟩
      cases r2 with
      | error e2 => simp [read_encapsulation, hT, h1, h2, getStateOf_setSnap]
      | ok kind =>
        have ht1 : s1.cdrType = CdrType.DDS_CDR := by
          have ha := deserialize_u8_cdrType s
          rw [h1] at ha
          rw [ha]
          exact hT
        have ht2 : s2.cdrType = CdrType.DDS_CDR := by
          have hb := deserialize_u8_cdrType s1
          rw [h2] at hb
          rw [hb]
          exact ht1
        have ht3 : (kindEndianAdjust s2 kind).cdrType = CdrType.DDS_CDR := by
          rw [kindEndianAdjust_cdrType]
          exact ht2
        simp only [read_encapsulation, hT, h1, h2, if_true] at h ⊢
        by_cases hpl : kind &&& DDS_CDR_WITH_PL ≠ 0
        · rw [if_pos hpl, if_pos ht3] at h ⊢
          exact readEncapsOpts_err _ _ _ h
        · rw [if_neg hpl] at h ⊢
          exact readEncapsOpts_err _ _ _ h
  case neg =>
    rcases h1 : deserialize_u8 s with ⟨r1, s1⟩
    cases r1 with
    | error e1 => simp [read_encapsulation, hT, h1, getStateOf_setSnap]
    | ok kind =>
      have ht1 : s1.cdrType = s.cdrType := by
        have ha := deserialize_u8_cdrType s
        rw [h1] at ha
        exact ha
      have ht3 : ¬((kindEndianAdjust s1 kind).cdrType = CdrType.DDS_CDR) := by
        rw [kindEndianAdjust_cdrType, ht1]
        exact hT
      simp only [read_encapsulation, if_neg hT, h1] at h ⊢
      by_cases hpl : kind &&& DDS_CDR_WITH_PL ≠ 0
      · rw [if_pos hpl, if_neg ht3] at h ⊢
        simp at h
      · rw [if_neg hpl] at h ⊢
        exact readEncapsOpts_err _ _ _ h

lemma serialize_encapsulation_err (s : CdrState) (e : CdrErr)
    (h : (serialize_encapsulation s).1 = Except.error e) :
    getStateOf (serialize_encapsulation s).2 = getStateOf s := by
  by_cases hT : s.cdrType = CdrType.DDS_CDR
  case pos =>
    rcases h1 : serialize_u8 s 0 with ⟨r1, s1⟩
    cases r1 with
    | error e1 => simp [serialize_encapsulation, hT, h1, getStateOf_setSnap]
    | ok u1 =>
      rcases h2 : serialize_u8 s1 (s1.plFlag ||| s1.endianness) with ⟨r2, s2⟩
      have ht2 : s2.cdrType = CdrType.DDS_CDR := by
        have ha := serialize_u8_cdrType s 0
        have hb := serialize_u8_cdrType s1 (s1.plFlag ||| s1.endianness)
        rw [h1] at ha
        rw [h2] at hb
        rw [hb, ha, hT]
      cases r2 with
      | error e2 => simp [serialize_encapsulation, hT, h1, h2, getStateOf_setSnap]
      | ok u2 =>
        rcases h3 : serialize_i16 s2 s2.options with ⟨r3, s3⟩
        cases r3 with
        | error e3 =>
          simp [serialize_encapsulation, hT, h1, h2, ht2, h3, getStateOf_setSnap]
        | ok u3 => simp [serialize_encapsulation, hT, h1, h2, ht2, h3] at h
  case neg =>
    rcases h1 : serialize_u8 s (s.plFlag ||| s.endianness) with ⟨r1, s1⟩
    have ht1 : s1.cdrType = s.cdrType := by
      have ha := serialize_u8_cdrType s (s.plFlag ||| s.endianness)
      rw [h1] at ha
      exact ha
    cases r1 with
    | error e1 => simp [serialize_encapsulation, hT, h1, getStateOf_setSnap]
    | ok u1 =>
      simp [serialize_encapsulation, hT, h1, ht1] at h

lemma serializeBoolSequence_err (s : CdrState) (v : List Bool) (e : CdrErr)
    (h : (serializeBoolSequence s v).1 = Except.error e) :
    getStateOf (serializeBoolSequence s v).2 = getStateOf s := by
  rcases hI : serialize_i32 s v.length with ⟨r, s1⟩
  cases r with
  | error e2 =>
    have hs1 : s1 = s := by
      have h2 := serialize_i32_err s v.length e2
      rw [hI] at h2
      exact h2 rfl
    simp [serializeBoolSequence, hI, hs1]
  | ok u =>
    cases hE : ensureSer s1 v.length with
    | some s2 => simp [serializeBoolSequence, hI, hE] at h
    | none => simp [serializeBoolSequence, hI, hE, getStateOf_setSnap]

lemma deBoolSeqLoop_no_nem (s : CdrState) (v : List Bool) (idx n : Nat) :
    (deBoolSeqLoop s v idx n).1 ≠ Except.error CdrErr.NotEnoughMemory := by
  induction n generalizing s v idx with
  | zero => simp [deBoolSeqLoop]
  | succ n ih =>
    simp only [deBoolSeqLoop]
    split
    · apply ih
    · split
      · apply ih
      · simp

lemma deserializeBoolSequence_nem (s : CdrState) (v : List Bool)
    (h : (deserializeBoolSequence s v).1 = Except.error CdrErr.NotEnoughMemory) :
    getStateOf (deserializeBoolSequence s v).2.1 = getStateOf s := by
  rcases hI : deserialize_i32 s with ⟨r, s1⟩
  cases r with
  | error e2 =>
    have hs1 : s1 = s := by
      have h2 := deserialize_i32_err s e2
      rw [hI] at h2
      exact h2 rfl
    simp [deserializeBoolSequence, hI, hs1]
  | ok n =>
    by_cases hrem : n ≤ remaining s1
    · simp only [deserializeBoolSequence, hI, hrem, if_true] at h
      exact absurd h (deBoolSeqLoop_no_nem _ _ _ _)
    · simp [deserializeBoolSequence, hI, hrem, getStateOf_setSnap]

/-- Fresh little-endian plain-CDR codec over the single byte `0x02`. -/
def c1CexSt : CdrState := mkCdr [2] false LITTLE_ENDIANNESS CdrType.CORBA_CDR

/-- Fresh little-endian plain-CDR codec over an empty, non-growable
buffer. -/
def c1NemSt : CdrState := mkCdr [] false LITTLE_ENDIANNESS CdrType.CORBA_CDR

/-- C1 (amended): for every serialize or deserialize operation other
than the wide-character array forms, if the operation raises the
insufficient-space error then the four state fields `data_cursor`,
`align_anchor`, `swap`, `last_data_size` equal their pre-call values.
(As stated over all operations and errors the claim fails twice over:
a bad-parameter error can be raised after the cursor has moved, and the
wide-character array loops carry no snapshot, so a mid-loop
insufficient-space error leaves the cursor advanced — see the
counterexample.) -/
theorem rollback_on_insufficient_space (op : CdrOp) (s : CdrState)
    (hop : op.isWcharArray = false)
    (h : (runOp op s).1 = Except.error CdrErr.NotEnoughMemory) :
    getStateOf (runOp op s).2 = getStateOf s := by
  cases op with
  | serArrWchar arr => simp [CdrOp.isWcharArray] at hop
  | serArrWcharE arr en => simp [CdrOp.isWcharArray] at hop
  | deArrWchar n => simp [CdrOp.isWcharArray] at hop
  | deArrWcharE n en => simp [CdrOp.isWcharArray] at hop
  | serU8 v =>
    rw [runOp] at h ⊢
    rw [serialize_u8_err s v CdrErr.NotEnoughMemory h]
  | serI16 v =>
    rw [runOp] at h ⊢
    rw [serialize_i16_err s v CdrErr.NotEnoughMemory h]
  | serI32 v =>
    rw [runOp] at h ⊢
    rw [serialize_i32_err s v CdrErr.NotEnoughMemory h]
  | serBool b =>
    rw [runOp] at h ⊢
    rw [serialize_bool_err s b CdrErr.NotEnoughMemory h]
  | serI16E v en =>
    rw [runOp] at h ⊢
    rw [serialize_i16_endian_err s v en CdrErr.NotEnoughMemory h]
  | serStr str =>
    rw [runOp] at h ⊢
    exact serialize_string_err s str CdrErr.NotEnoughMemory h
  | serArrBool arr =>
    rw [runOp] at h ⊢
    rw [serializeArray_bool_err s arr CdrErr.NotEnoughMemory h]
  | serArrChar arr =>
    rw [runOp] at h ⊢
    rw [serializeArray_char_err s arr CdrErr.NotEnoughMemory h]
  | serArrI16 arr =>
    rw [runOp] at h ⊢
    rw [serializeArray_i16_err s arr CdrErr.NotEnoughMemory h]
  | serEncaps =>
    rw [runOp] at h ⊢
    exact serialize_encapsulation_err s CdrErr.NotEnoughMemory h
  | serBoolSeq v =>
    rw [runOp] at h ⊢
    exact serializeBoolSequence_err s v CdrErr.NotEnoughMemory h
  | deU8 =>
    rw [runOp] at h ⊢
    rw [dropVal_err] at h
    show getStateOf (deserialize_u8 s).2 = getStateOf s
    rw [deserialize_u8_err s CdrErr.NotEnoughMemory h]
  | deI16 =>
    rw [runOp] at h ⊢
    rw [dropVal_err] at h
    show getStateOf (deserialize_i16 s).2 = getStateOf s
    rw [deserialize_i16_err s CdrErr.NotEnoughMemory h]
  | deI32 =>
    rw [runOp] at h ⊢
    rw [dropVal_err] at h
    show getStateOf (deserialize_i32 s).2 = getStateOf s
    rw [deserialize_i32_err s CdrErr.NotEnoughMemory h]
  | deBool =>
    rw [runOp] at h ⊢
    rw [dropVal_err] at h
    show getStateOf (deserialize_bool s).2 = getStateOf s
    rw [deserialize_bool_nem s h]
  | deI16E en =>
    rw [runOp] at h ⊢
    rw [dropVal_err] at h
    show getStateOf (deserialize_i16_endian s en).2 = getStateOf s
    rw [deserialize_i16_endian_err s en CdrErr.NotEnoughMemory h]
  | deStr =>
    rw [runOp] at h ⊢
    rw [dropVal_err] at h
    exact deserialize_string_err s CdrErr.NotEnoughMemory h
  | readStr =>
    rw [runOp] at h ⊢
    rw [dropVal_err] at h
    exact readString_err s CdrErr.NotEnoughMemory h
  | deArrBool old =>
    rw [runOp] at h ⊢
    rw [dropVal_err] at h
    show getStateOf (deserializeArray_bool s old).2 = getStateOf s
    rw [deserializeArray_bool_err s old CdrErr.NotEnoughMemory h]
  | deArrI16 n =>
    rw [runOp] at h ⊢
    rw [dropVal_err] at h
    show getStateOf (deserializeArray_i16 s n).2 = getStateOf s
    rw [deserializeArray_i16_err s n CdrErr.NotEnoughMemory h]
  | readEncaps =>
    rw [runOp] at h ⊢
    exact read_encapsulation_nem s h
  | deBoolSeq v =>
    rw [runOp] at h ⊢
    exact deserializeBoolSequence_nem s v h

/-- Witness for C1: a 16-bit read (not a wide-character array op) from an
exhausted buffer raises insufficient-space and the four state fields are
unchanged. -/
theorem rollback_on_insufficient_space_witness :
    CdrOp.isWcharArray CdrOp.deI16 = false ∧
    (runOp CdrOp.deI16 c1NemSt).1 = Except.error CdrErr.NotEnoughMemory ∧
    getStateOf (runOp CdrOp.deI16 c1NemSt).2 = getStateOf c1NemSt :=
  ⟨by decide, by decide,
   rollback_on_insufficient_space CdrOp.deI16 c1NemSt (by decide) (by decide)⟩

/-- Little-endian plain-CDR codec over exactly four zero bytes: one full
uint32 readable, nothing behind it. -/
def c1WcharSt : CdrState := mkCdr [0, 0, 0, 0] false LITTLE_ENDIANNESS CdrType.CORBA_CDR

/-- Counterexample for C1 as stated, on both failing families:
`deserialize(bool&)` over the byte `0x02` raises bad-parameter with the
cursor (and `last_data_size`) changed; and a two-element wide-character
array read over a four-byte buffer consumes the first 32-bit element,
then raises insufficient-space mid-loop with no restore, leaving the
cursor at 4. -/
theorem rollback_not_transactional_cex :
    ((runOp CdrOp.deBool c1CexSt).1 = Except.error CdrErr.BadParam ∧
     getStateOf (runOp CdrOp.deBool c1CexSt).2 ≠ getStateOf c1CexSt) ∧
    ((runOp (CdrOp.deArrWchar 2) c1WcharSt).1 =
       Except.error CdrErr.NotEnoughMemory ∧
     (runOp (CdrOp.deArrWchar 2) c1WcharSt).2.curPos = 4 ∧
     getStateOf (runOp (CdrOp.deArrWchar 2) c1WcharSt).2 ≠ getStateOf c1WcharSt) :=
  ⟨⟨by decide, by decide⟩, ⟨by decide, by decide, by decide⟩⟩

lemma serialize_i16_frame (s : CdrState) (v : Nat) :
    (serialize_i16 s v).2.alignPos = s.alignPos ∧
    (serialize_i16 s v).2.endianness = s.endianness ∧
    (serialize_i16 s v).2.plFlag = s.plFlag ∧
    (serialize_i16 s v).2.options = s.options := by
  cases hE : ensureSer s (2 + alignment s 2) with
  | none => simp [serialize_i16, hE]
  | some s1 =>
    obtain ⟨_, ha, _, _, he, hp, ho, _, _⟩ := ensureSer_fields s s1 _ hE
    simp [serialize_i16, hE, makeAlign, writeBytes, ha, he, hp, ho]

lemma deserialize_i16_frame (s : CdrState) :
    (deserialize_i16 s).2.alignPos = s.alignPos ∧
    (deserialize_i16 s).2.endianness = s.endianness ∧
    (deserialize_i16 s).2.plFlag = s.plFlag ∧
    (deserialize_i16 s).2.options = s.options := by
  by_cases hrem : 2 + alignment s 2 ≤ remaining s <;>
    simp [deserialize_i16, hrem, makeAlign, readByte]

/-- Little-endian plain-CDR codec over the byte `0x02`, used against the
single-boolean reader. -/
def c2St : CdrState := mkCdr [2] false LITTLE_ENDIANNESS CdrType.CORBA_CDR

/-- C2 (amended): whenever the next readable byte is outside `{0, 1}`,
`deserialize(bool&)` raises a bad-parameter error, but the data cursor
advances by one byte past the offending value (and `last_data_size`
becomes 1); the remaining fields and the buffer are unchanged. -/
theorem bool_bad_byte_raises_cursor_advances (s : CdrState)
    (hrem : 1 ≤ remaining s)
    (h0 : s.buf.getD s.curPos 0 ≠ 0) (h1 : s.buf.getD s.curPos 0 ≠ 1) :
    (deserialize_bool s).1 = Except.error CdrErr.BadParam ∧
    (deserialize_bool s).2.curPos = s.curPos + 1 ∧
    (deserialize_bool s).2.lastDataSize = 1 ∧
    (deserialize_bool s).2.alignPos = s.alignPos ∧
    (deserialize_bool s).2.swapBytes = s.swapBytes ∧
    (deserialize_bool s).2.buf = s.buf := by
  simp only [List.getD_eq_getElem?_getD] at h0 h1
  simp [deserialize_bool, hrem, readByte, h0, h1]

/-- Witness for C2: the concrete byte `0x02` at offset 0. -/
theorem bool_bad_byte_raises_cursor_advances_witness :
    (1 ≤ remaining c2St ∧ c2St.buf.getD c2St.curPos 0 ≠ 0 ∧
     c2St.buf.getD c2St.curPos 0 ≠ 1) ∧
    ((deserialize_bool c2St).1 = Except.error CdrErr.BadParam ∧
     (deserialize_bool c2St).2.curPos = c2St.curPos + 1 ∧
     (deserialize_bool c2St).2.lastDataSize = 1 ∧
     (deserialize_bool c2St).2.alignPos = c2St.alignPos ∧
     (deserialize_bool c2St).2.swapBytes = c2St.swapBytes ∧
     (deserialize_bool c2St).2.buf = c2St.buf) :=
  ⟨⟨by decide, by decide, by decide⟩,
   bool_bad_byte_raises_cursor_advances c2St (by decide) (by decide) (by decide)⟩

/-- Counterexample for C2 as stated: the error is raised but the data
cursor is NOT unchanged — it moves from 0 to 1. -/
theorem bool_bad_byte_cursor_not_unchanged_cex :
    (deserialize_bool c2St).1 = Except.error CdrErr.BadParam ∧
    (deserialize_bool c2St).2.curPos ≠ c2St.curPos :=
  ⟨by decide, by decide⟩

/-- Little-endian plain-CDR codec over the single header byte `0x02`
(endianness bit = big, PL bit set). -/
def c3St : CdrState := mkCdr [2] false LITTLE_ENDIANNESS CdrType.CORBA_CDR

/-- C3 (code evaluated at the failing input): with flavor plain CDR and a
stream whose `encapsulation_kind` has the PL bit set,
`read_encapsulation` raises bad-parameter, but the pre-call snapshot is
NOT restored: the cursor stays at 1, `swap` and `byte_order` keep the
toggled values, and `last_data_size` is 1.  The spec requires the
snapshot restore (its note 9.4 flags that the source performs the PL
check after the snapshot has gone out of use). -/
theorem read_encapsulation_pl_bit_state_not_restored :
    (read_encapsulation c3St).1 = Except.error CdrErr.BadParam ∧
    (read_encapsulation c3St).2.curPos = 1 ∧
    (read_encapsulation c3St).2.swapBytes = true ∧
    (read_encapsulation c3St).2.endianness = BIG_ENDIANNESS ∧
    (read_encapsulation c3St).2.lastDataSize = 1 ∧
    getStateOf (read_encapsulation c3St).2 ≠ getStateOf c3St := by
  refine ⟨by decide, by decide, by decide, by decide, by decide, by decide⟩

/-- C4: the byte-order-override forms of serialize and deserialize leave
`swap`, `byte_order`, `pl_flag`, `options`, and the alignment anchor at
their pre-call values, whether the call succeeds or raises. -/
theorem endian_override_purity (s : CdrState) (v en : Nat) :
    ((serialize_i16_endian s v en).2.swapBytes = s.swapBytes ∧
     (serialize_i16_endian s v en).2.endianness = s.endianness ∧
     (serialize_i16_endian s v en).2.plFlag = s.plFlag ∧
     (serialize_i16_endian s v en).2.options = s.options ∧
     (serialize_i16_endian s v en).2.alignPos = s.alignPos) ∧
    ((deserialize_i16_endian s en).2.swapBytes = s.swapBytes ∧
     (deserialize_i16_endian s en).2.endianness = s.endianness ∧
     (deserialize_i16_endian s en).2.plFlag = s.plFlag ∧
     (deserialize_i16_endian s en).2.options = s.options ∧
     (deserialize_i16_endian s en).2.alignPos = s.alignPos) := by
  constructor
  · rcases hI : serialize_i16 { s with swapBytes := overrideSwap s en } v with ⟨r, s1⟩
    have hf := serialize_i16_frame { s with swapBytes := overrideSwap s en } v
    rw [hI] at hf
    obtain ⟨ha, he, hp, ho⟩ := hf
    cases r <;> simp_all [serialize_i16_endian, hI]
  · rcases hI : deserialize_i16 { s with swapBytes := overrideSwap s en } with ⟨r, s1⟩
    have hf := deserialize_i16_frame { s with swapBytes := overrideSwap s en }
    rw [hI] at hf
    obtain ⟨ha, he, hp, ho⟩ := hf
    cases r <;> simp_all [deserialize_i16_endian, hI]

/-- Fresh little-endian plain-CDR codec over an empty buffer
(`last_data_size = 0`). -/
def c5St : CdrState := mkCdr [] false LITTLE_ENDIANNESS CdrType.CORBA_CDR

/-- C5 (amended): zero-count array operations never move the data cursor,
never write padding or payload, and leave the alignment anchor alone.
For the multi-byte element types (here int16) the early `numElements == 0`
return leaves the whole state untouched; the bool and char/byte array
forms have no early return and still set `last_data_size` to 1. -/
theorem empty_array_noop :
    (∀ s : CdrState, serializeArray_i16 s [] = (Except.ok (), s)) ∧
    (∀ s : CdrState, deserializeArray_i16 s 0 = (Except.ok [], s)) ∧
    (∀ s : CdrState, (serializeArray_bool s []).1 = Except.ok () ∧
      (serializeArray_bool s []).2.curPos = s.curPos ∧
      (serializeArray_bool s []).2.alignPos = s.alignPos ∧
      (serializeArray_bool s []).2.buf = s.buf ∧
      (serializeArray_bool s []).2.swapBytes = s.swapBytes ∧
      (serializeArray_bool s []).2.lastDataSize = 1) ∧
    (∀ s : CdrState, (serializeArray_char s []).1 = Except.ok () ∧
      (serializeArray_char s []).2.curPos = s.curPos ∧
      (serializeArray_char s []).2.alignPos = s.alignPos ∧
      (serializeArray_char s []).2.buf = s.buf ∧
      (serializeArray_char s []).2.swapBytes = s.swapBytes ∧
      (serializeArray_char s []).2.lastDataSize = 1) ∧
    (∀ s : CdrState, (deserializeArray_bool s []).1 = Except.ok [] ∧
      (deserializeArray_bool s []).2.curPos = s.curPos ∧
      (deserializeArray_bool s []).2.alignPos = s.alignPos ∧
      (deserializeArray_bool s []).2.buf = s.buf ∧
      (deserializeArray_bool s []).2.swapBytes = s.swapBytes ∧
      (deserializeArray_bool s []).2.lastDataSize = 1) := by
  refine ⟨?_, ?_, ?_, ?_, ?_⟩
  · intro s
    simp [serializeArray_i16]
  · intro s
    simp [deserializeArray_i16]
  · intro s
    simp [serializeArray_bool, ensureSer, remaining, writeBytes, setBytes]
  · intro s
    simp [serializeArray_char, ensureSer, remaining, writeBytes, setBytes]
  · intro s
    simp [deserializeArray_bool, remaining, deArrBoolLoop]

/-- Counterexample for C5 as stated: a zero-count bool-array serialize on
a fresh codec changes `last_data_size` (0 becomes 1). -/
theorem empty_bool_array_sets_lastDataSize_cex :
    (serializeArray_bool c5St []).1 = Except.ok () ∧
    (serializeArray_bool c5St []).2.lastDataSize ≠ c5St.lastDataSize :=
  ⟨by decide, by decide⟩

lemma deArrBoolLoop_frame (s : CdrState) (arr : List Bool) :
    (deArrBoolLoop s arr).1.curPos = s.curPos + arr.length ∧
    (deArrBoolLoop s arr).1.buf = s.buf ∧
    (deArrBoolLoop s arr).1.alignPos = s.alignPos ∧
    (deArrBoolLoop s arr).1.swapBytes = s.swapBytes ∧
    (deArrBoolLoop s arr).1.lastDataSize = s.lastDataSize := by
  induction arr generalizing s with
  | nil => simp [deArrBoolLoop]
  | cons old rest ih =>
    have h2 := ih { s with curPos := s.curPos + 1 }
    simp only [deArrBoolLoop, readByte] at h2 ⊢
    refine ⟨?_, h2.2.1, h2.2.2.1, h2.2.2.2.1, h2.2.2.2.2⟩
    rw [h2.1]
    simp only [List.length_cons]
    omega

lemma deArrBoolLoop_get (s : CdrState) (arr : List Bool) (i : Nat) :
    (deArrBoolLoop s arr).2[i]? =
      (arr[i]?).map fun old => boolElemRule (s.buf.getD (s.curPos + i) 0) old := by
  induction arr generalizing s i with
  | nil => simp [deArrBoolLoop]
  | cons old rest ih =>
    cases i with
    | zero => simp [deArrBoolLoop, readByte]
    | succ j =>
      have h2 := ih { s with curPos := s.curPos + 1 } j
      simp only [deArrBoolLoop, readByte, List.getElem?_cons_succ] at h2 ⊢
      rw [h2]
      have : s.curPos + 1 + j = s.curPos + (j + 1) := by omega
      rw [this]

/-- Little-endian plain-CDR codec over the byte `0x02`, used against the
bool-array reader. -/
def c6St : CdrState := mkCdr [2] false LITTLE_ENDIANNESS CdrType.CORBA_CDR

/-- C6 (amended): when enough bytes remain, bool-array deserialize never
raises any error — unlike the single-boolean reader; a byte outside
`{0, 1}` is silently ignored, the destination element keeps its prior
value, and the cursor still advances over every element byte. -/
theorem bool_array_bad_bytes_ignored (s : CdrState) (arr : List Bool)
    (hrem : arr.length ≤ remaining s) :
    (∀ e : CdrErr, (deserializeArray_bool s arr).1 ≠ Except.error e) ∧
    (deserializeArray_bool s arr).2.curPos = s.curPos + arr.length ∧
    ∀ i, s.buf.getD (s.curPos + i) 0 ≠ 0 → s.buf.getD (s.curPos + i) 0 ≠ 1 →
      (match (deserializeArray_bool s arr).1 with
       | Except.ok out => out[i]?
       | Except.error _ => none) = arr[i]? := by
  have hcur := (deArrBoolLoop_frame { s with lastDataSize := 1 } arr).1
  refine ⟨?_, ?_, ?_⟩
  · intro e
    simp [deserializeArray_bool, hrem]
  · simp only [deserializeArray_bool, hrem, if_true]
    exact hcur
  · intro i h0 h1
    simp only [deserializeArray_bool, hrem, if_true]
    rw [deArrBoolLoop_get { s with lastDataSize := 1 } arr i]
    cases hx : arr[i]? with
    | none => simp
    | some old =>
      simp only [List.getD_eq_getElem?_getD] at h0 h1
      simp [boolElemRule, h0, h1]

/-- Witness for C6: one element, input byte `0x02`; the call succeeds,
the element keeps its prior value `false`, the cursor advances. -/
theorem bool_array_bad_bytes_ignored_witness :
    ([false].length ≤ remaining c6St) ∧
    ((∀ e : CdrErr, (deserializeArray_bool c6St [false]).1 ≠ Except.error e) ∧
     (deserializeArray_bool c6St [false]).2.curPos = c6St.curPos + [false].length ∧
     ∀ i, c6St.buf.getD (c6St.curPos + i) 0 ≠ 0 →
       c6St.buf.getD (c6St.curPos + i) 0 ≠ 1 →
       (match (deserializeArray_bool c6St [false]).1 with
        | Except.ok out => out[i]?
        | Except.error _ => none) = [false][i]?) :=
  ⟨by decide, bool_array_bad_bytes_ignored c6St [false] (by decide)⟩

/-- Counterexample for C6 as stated: the byte `0x02` does NOT raise a
bad-parameter error from the bool-array reader — the call returns
success with the element left at `false`. -/
theorem bool_array_no_bad_param_cex :
    (deserializeArray_bool c6St [false]).1 = Except.ok [false] ∧
    (deserializeArray_bool c6St [false]).2.curPos = 1 :=
  ⟨by decide, by decide⟩

lemma serialize_i32_ok_lds (s : CdrState) (v : Nat)
    (h : (serialize_i32 s v).1 = Except.ok ()) :
    (serialize_i32 s v).2.lastDataSize = 4 := by
  cases hE : ensureSer s (4 + alignment s 4) with
  | some s1 => simp [serialize_i32, hE, makeAlign, writeBytes]
  | none => simp [serialize_i32, hE] at h

lemma deserialize_i32_ok_lds (s : CdrState) (n : Nat)
    (h : (deserialize_i32 s).1 = Except.ok n) :
    (deserialize_i32 s).2.lastDataSize = 4 := by
  by_cases hrem : 4 + alignment s 4 ≤ remaining s
  · simp [deserialize_i32, hrem, makeAlign, readByte]
  · simp [deserialize_i32, hrem] at h

/-- Growable little-endian plain-CDR codec over an empty buffer. -/
def c7St : CdrState := mkCdr [] true LITTLE_ENDIANNESS CdrType.CORBA_CDR

/-- C7 (amended): after a successful string serialize or deserialize that
transfers payload bytes, `last_data_size` is 1; but on the null-pointer
and length-0 shortcut paths the last primitive written or read is the
32-bit length field, so `last_data_size` is 4, not 1. -/
theorem string_ops_lastDataSize :
    (∀ (s : CdrState) (str : Option (List Nat)),
      (serialize_string s str).1 = Except.ok () →
      (serialize_string s str).2.lastDataSize =
        (if str = none then 4 else 1)) ∧
    (∀ (s : CdrState) (r : Option (List Nat)),
      (deserialize_string s).1 = Except.ok r →
      (deserialize_string s).2.lastDataSize =
        (if r = none then 4 else 1)) ∧
    (∀ (s : CdrState) (reg : List Nat) (len : Nat),
      (readString s).1 = Except.ok (reg, len) →
      (readString s).2.lastDataSize = (if reg = [] then 4 else 1)) := by
  refine ⟨?_, ?_, ?_⟩
  · intro s str h
    cases str with
    | none =>
      rcases hI : serialize_i32 s 0 with ⟨r0, s1⟩
      cases r0 with
      | error e => simp [serialize_string, hI] at h
      | ok u =>
        have hlds := serialize_i32_ok_lds s 0 (by rw [hI])
        rw [hI] at hlds
        have hlds2 : s1.lastDataSize = 4 := hlds
        simp [serialize_string, hI, hlds2]
    | some cs =>
      rcases hI : serialize_i32 s (cs.length + 1) with ⟨r0, s1⟩
      cases r0 with
      | error e => simp [serialize_string, hI] at h
      | ok u =>
        cases hE : ensureSer s1 (cs.length + 1) with
        | some s2 => simp [serialize_string, hI, hE, writeBytes]
        | none => simp [serialize_string, hI, hE] at h
  · intro s r h
    rcases hI : deserialize_i32 s with ⟨r0, s1⟩
    cases r0 with
    | error e => simp [deserialize_string, hI] at h
    | ok length =>
      have hlds := deserialize_i32_ok_lds s length (by rw [hI])
      rw [hI] at hlds
      have hlds2 : s1.lastDataSize = 4 := hlds
      by_cases h0 : length = 0
      · have hr : r = none := by
          simp [deserialize_string, hI, h0] at h
          exact h.symm
        simp [deserialize_string, hI, h0, hr, hlds2]
      · by_cases hrem : length ≤ remaining s1
        · have hr : r = some (readRegion { s1 with lastDataSize := 1 } length) := by
            simp [deserialize_string, hI, h0, hrem] at h
            exact h.symm
          simp [deserialize_string, hI, h0, hrem, hr]
        · simp [deserialize_string, hI, h0, hrem] at h
  · intro s reg len h
    rcases hI : deserialize_i32 s with ⟨r0, s1⟩
    cases r0 with
    | error e => simp [readString, hI] at h
    | ok length =>
      have hlds := deserialize_i32_ok_lds s length (by rw [hI])
      rw [hI] at hlds
      have hlds2 : s1.lastDataSize = 4 := hlds
      by_cases h0 : length = 0
      · have hr : reg = [] := by
          simp [readString, hI, h0] at h
          exact h.1
        simp [readString, hI, h0, hr, hlds2]
      · by_cases hrem : length ≤ remaining s1
        · have hr : reg = readRegion { s1 with lastDataSize := 1 } length := by
            simp [readString, hI, h0, hrem] at h
            exact h.1.symm
          have hlen : reg.length = length := by
            rw [hr]
            simp [readRegion, remaining] at hrem ⊢
            omega
          have hne : ¬(reg = []) := by
            intro hcon
            rw [hcon] at hlen
            simp at hlen
            exact h0 hlen.symm
          simp [readString, hI, h0, hrem, hne]
        · simp [readString, hI, h0, hrem] at h

/-- Witness for C7: serializing the null string on a growable codec
succeeds and leaves `last_data_size = 4` (the length field width). -/
theorem string_ops_lastDataSize_witness :
    (serialize_string c7St none).1 = Except.ok () ∧
    (serialize_string c7St none).2.lastDataSize =
      (if (none : Option (List Nat)) = none then 4 else 1) :=
  ⟨by decide, string_ops_lastDataSize.1 c7St none (by decide)⟩

/-- Counterexample for C7 as stated: the null-pointer serialize returns
successfully with `last_data_size = 4`, not 1. -/
theorem null_string_lastDataSize_cex :
    (serialize_string c7St none).1 = Except.ok () ∧
    (serialize_string c7St none).2.lastDataSize ≠ 1 :=
  ⟨by decide, by decide⟩

/-- Little-endian plain-CDR codec over a 7-byte zeroed buffer, for the
string "hi" write. -/
def c8WrSt : CdrState := mkCdr (List.replicate 7 0) false LITTLE_ENDIANNESS CdrType.CORBA_CDR

/-- Little-endian plain-CDR codec over the serialized bytes of "hi". -/
def c8RdSt : CdrState := mkCdr [3, 0, 0, 0, 0x68, 0x69, 0] false LITTLE_ENDIANNESS CdrType.CORBA_CDR

/-- C8: on a little-endian codec at offset 0, serializing "hi" produces
exactly `03 00 00 00 68 69 00` (32-bit length prefix counting the NUL,
then the raw bytes), and `readString` over those bytes exposes the
3-byte region `68 69 00` and reports logical length 2. -/
theorem string_hi_roundtrip_bytes :
    serialize_string c8WrSt (some [0x68, 0x69]) =
      (Except.ok (),
        { c8WrSt with buf := [3, 0, 0, 0, 0x68, 0x69, 0], curPos := 7,
                      lastDataSize := 1 }) ∧
    readString c8RdSt =
      (Except.ok ([0x68, 0x69, 0], 2),
        { c8RdSt with curPos := 7, lastDataSize := 1 }) :=
  ⟨by decide, by decide⟩

/-- DDS-CDR little-endian codec with the PL flag set and options
`0xBEEF`, over a 6-byte zeroed buffer. -/
def c9St : CdrState :=
  { mkCdr (List.replicate 6 0) false LITTLE_ENDIANNESS CdrType.DDS_CDR with
      plFlag := DDS_CDR_WITH_PL, options := 0xBEEF }

/-- C9: `serialize_encapsulation` on a DDS-CDR little-endian codec with
PL set and options `0xBEEF` writes exactly `00 03 EF BE`, and afterwards
the alignment anchor equals the data cursor (4), so a following int16
write needs no padding: `0x1234` lands at bytes 4-5 as `34 12`. -/
theorem dds_encapsulation_header_bytes :
    (serialize_encapsulation c9St).1 = Except.ok () ∧
    (serialize_encapsulation c9St).2.buf.take 4 = [0x00, 0x03, 0xEF, 0xBE] ∧
    (serialize_encapsulation c9St).2.curPos = 4 ∧
    (serialize_encapsulation c9St).2.alignPos = 4 ∧
    alignment (serialize_encapsulation c9St).2 2 = 0 ∧
    (serialize_i16 (serialize_encapsulation c9St).2 0x1234).2.buf =
      [0x00, 0x03, 0xEF, 0xBE, 0x34, 0x12] ∧
    (serialize_i16 (serialize_encapsulation c9St).2 0x1234).2.curPos = 6 :=
  ⟨by decide, by decide, by decide, by decide, by decide, by decide, by decide⟩

lemma listResize_length (v : List Bool) (n : Nat) :
    (listResize v n).length = n := by
  simp [listResize]
  omega

/-- Little-endian plain-CDR codec over the four length bytes
`05 00 00 00` (sequence length 5, no element bytes). -/
def c10St : CdrState := mkCdr [5, 0, 0, 0] false LITTLE_ENDIANNESS CdrType.CORBA_CDR

/-- C10: `deserialize_bool_sequence` resizes the caller's vector to the
decoded 32-bit length before the remaining-bytes check; when that check
then raises insufficient-space, the codec state is restored to the
pre-call snapshot, but the returned vector keeps the new length. -/
theorem bool_sequence_vector_resized_on_nem (s : CdrState) (v : List Bool)
    (n : Nat) (hok : (deserialize_i32 s).1 = Except.ok n)
    (hrem : remaining (deserialize_i32 s).2 < n) :
    (deserializeBoolSequence s v).1 = Except.error CdrErr.NotEnoughMemory ∧
    getStateOf (deserializeBoolSequence s v).2.1 = getStateOf s ∧
    (deserializeBoolSequence s v).2.2.length = n := by
  rcases hI : deserialize_i32 s with ⟨r0, s1⟩
  rw [hI] at hok hrem
  have hr0 : r0 = Except.ok n := hok
  subst hr0
  have hrem1 : ¬(n ≤ remaining s1) := by
    simp only at hrem
    omega
  simp [deserializeBoolSequence, hI, hrem1, getStateOf_setSnap,
    listResize_length]

/-- Witness for C10: length prefix 5 with an exhausted buffer; the empty
input vector comes back with length 5 while the codec state snaps back. -/
theorem bool_sequence_vector_resized_on_nem_witness :
    ((deserialize_i32 c10St).1 = Except.ok 5 ∧
     remaining (deserialize_i32 c10St).2 < 5) ∧
    ((deserializeBoolSequence c10St []).1 = Except.error CdrErr.NotEnoughMemory ∧
     getStateOf (deserializeBoolSequence c10St []).2.1 = getStateOf c10St ∧
     (deserializeBoolSequence c10St []).2.2.length = 5) :=
  ⟨⟨by decide, by decide⟩,
   bool_sequence_vector_resized_on_nem c10St [] 5 (by decide) (by decide)⟩

end FastCdr
